import Mathlib

/-!
Shallow embedding of the mesh-viewer core (src/core/camera.py, scene.py,
input_handler.py, mesh.py, renderer.py and src/config/settings.py) over the
real numbers, together with proofs of the frozen claims about it.

Conventions of the embedding:
* Python/GLM floating-point scalars are modelled as real numbers; float
  literals from the source appear as the corresponding decimal literals.
* GLM matrices are column-major; the `Mat4` field `mCR` is `m[C][R]` in GLM
  indexing, i.e. column `C`, row `R`.
* GLM `normalize` of the zero vector produces non-finite junk in floats; the
  real model returns the zero vector there (division by zero is zero in Lean),
  and no claim depends on that junk value.
* Stateful Python methods become functions returning the updated object
  (and the method result, when there is one).
-/

noncomputable section

/-- Vector of three scalars, the model of `glm.vec3`. -/
@[ext] structure Vec3 where
  x : ℝ
  y : ℝ
  z : ℝ

/-- Vector of four scalars, the model of `glm.vec4`. -/
@[ext] structure Vec4 where
  x : ℝ
  y : ℝ
  z : ℝ
  w : ℝ

/-- Quaternion `glm.quat(w, x, y, z)`; the `glm`/pyglm constructor takes the
scalar part `w` first, as in `glm.quat(0.7071, 0.0, -0.7071, 0.0)`. -/
@[ext] structure Quat where
  w : ℝ
  x : ℝ
  y : ℝ
  z : ℝ

/-- Column-major 4x4 matrix, the model of `glm.mat4`: field `mCR` is the GLM
entry `m[C][R]` (column `C`, row `R`). -/
@[ext] structure Mat4 where
  m00 : ℝ
  m01 : ℝ
  m02 : ℝ
  m03 : ℝ
  m10 : ℝ
  m11 : ℝ
  m12 : ℝ
  m13 : ℝ
  m20 : ℝ
  m21 : ℝ
  m22 : ℝ
  m23 : ℝ
  m30 : ℝ
  m31 : ℝ
  m32 : ℝ
  m33 : ℝ

def Vec3.add (a b : Vec3) : Vec3 := ⟨a.x + b.x, a.y + b.y, a.z + b.z⟩

def Vec3.sub (a b : Vec3) : Vec3 := ⟨a.x - b.x, a.y - b.y, a.z - b.z⟩

def Vec3.neg (a : Vec3) : Vec3 := ⟨-a.x, -a.y, -a.z⟩

def Vec3.smul (c : ℝ) (a : Vec3) : Vec3 := ⟨c * a.x, c * a.y, c * a.z⟩

def Vec3.dot (a b : Vec3) : ℝ := a.x * b.x + a.y * b.y + a.z * b.z

/-- Cross product, as in `glm.cross`. -/
def Vec3.cross (a b : Vec3) : Vec3 :=
  ⟨a.y * b.z - a.z * b.y, a.z * b.x - a.x * b.z, a.x * b.y - a.y * b.x⟩

/-- Euclidean length, `glm.length`. -/
noncomputable def Vec3.len (a : Vec3) : ℝ := Real.sqrt (Vec3.dot a a)

/-- Unit-length rescaling, `glm.normalize`. GLM produces non-finite junk on
the zero vector; here division by the zero length yields the zero vector. -/
noncomputable def Vec3.normalize (a : Vec3) : Vec3 :=
  Vec3.smul (1 / Vec3.len a) a

/-- First three components of a `vec4`, as in `glm.vec3(v4)`. -/
def Vec4.toVec3 (v : Vec4) : Vec3 := ⟨v.x, v.y, v.z⟩

/-- Extension of a `vec3` to a `vec4` with the given last component, as in
`glm.vec4(v, w)`. -/
def Vec3.toVec4 (v : Vec3) (w : ℝ) : Vec4 := ⟨v.x, v.y, v.z, w⟩

/-- Quaternion product (Hamilton product), `glm` 'quat * quat'. -/
def Quat.mul (p q : Quat) : Quat :=
  ⟨p.w * q.w - p.x * q.x - p.y * q.y - p.z * q.z,
   p.w * q.x + p.x * q.w + p.y * q.z - p.z * q.y,
   p.w * q.y + p.y * q.w + p.z * q.x - p.x * q.z,
   p.w * q.z + p.z * q.w + p.x * q.y - p.y * q.x⟩

/-- Squared norm of a quaternion. -/
def Quat.normSq (q : Quat) : ℝ := q.w * q.w + q.x * q.x + q.y * q.y + q.z * q.z

/-- Angle-axis quaternion, `glm.angleAxis(angle, axis)`: scalar part
`cos(angle * 0.5)`, vector part `axis * sin(angle * 0.5)`. -/
noncomputable def angleAxis (angle : ℝ) (axis : Vec3) : Quat :=
  ⟨Real.cos (angle * 0.5), axis.x * Real.sin (angle * 0.5),
   axis.y * Real.sin (angle * 0.5), axis.z * Real.sin (angle * 0.5)⟩

/-- Degrees to radians, `glm.radians`. -/
noncomputable def radians (deg : ℝ) : ℝ := deg * (Real.pi / 180)

/-- Identity matrix `glm.mat4(1.0)`. -/
def mat4id : Mat4 :=
  ⟨1, 0, 0, 0, 0, 1, 0, 0, 0, 0, 1, 0, 0, 0, 0, 1⟩

/-- Translation matrix `glm.translate(glm.mat4(1.0), v)` (the source always
translates the identity): identity with last column `(v, 1)`. -/
def translateMat (v : Vec3) : Mat4 :=
  ⟨1, 0, 0, 0, 0, 1, 0, 0, 0, 0, 1, 0, v.x, v.y, v.z, 1⟩

/-- Rotation matrix of a quaternion, `glm.mat4_cast` (GLM `mat3_cast` formula
embedded in a 4x4 with last row and column of the identity). -/
def mat4Cast (q : Quat) : Mat4 :=
  ⟨1 - 2 * (q.y * q.y + q.z * q.z), 2 * (q.x * q.y + q.w * q.z),
     2 * (q.x * q.z - q.w * q.y), 0,
   2 * (q.x * q.y - q.w * q.z), 1 - 2 * (q.x * q.x + q.z * q.z),
     2 * (q.y * q.z + q.w * q.x), 0,
   2 * (q.x * q.z + q.w * q.y), 2 * (q.y * q.z - q.w * q.x),
     1 - 2 * (q.x * q.x + q.y * q.y), 0,
   0, 0, 0, 1⟩

/-- Matrix product 'A * B' (column-major): entry `[c][r]` of the product is
the dot product of row `r` of `A` with column `c` of `B`. -/
def Mat4.mul (a b : Mat4) : Mat4 :=
  ⟨a.m00 * b.m00 + a.m10 * b.m01 + a.m20 * b.m02 + a.m30 * b.m03,
   a.m01 * b.m00 + a.m11 * b.m01 + a.m21 * b.m02 + a.m31 * b.m03,
   a.m02 * b.m00 + a.m12 * b.m01 + a.m22 * b.m02 + a.m32 * b.m03,
   a.m03 * b.m00 + a.m13 * b.m01 + a.m23 * b.m02 + a.m33 * b.m03,
   a.m00 * b.m10 + a.m10 * b.m11 + a.m20 * b.m12 + a.m30 * b.m13,
   a.m01 * b.m10 + a.m11 * b.m11 + a.m21 * b.m12 + a.m31 * b.m13,
   a.m02 * b.m10 + a.m12 * b.m11 + a.m22 * b.m12 + a.m32 * b.m13,
   a.m03 * b.m10 + a.m13 * b.m11 + a.m23 * b.m12 + a.m33 * b.m13,
   a.m00 * b.m20 + a.m10 * b.m21 + a.m20 * b.m22 + a.m30 * b.m23,
   a.m01 * b.m20 + a.m11 * b.m21 + a.m21 * b.m22 + a.m31 * b.m23,
   a.m02 * b.m20 + a.m12 * b.m21 + a.m22 * b.m22 + a.m32 * b.m23,
   a.m03 * b.m20 + a.m13 * b.m21 + a.m23 * b.m22 + a.m33 * b.m23,
   a.m00 * b.m30 + a.m10 * b.m31 + a.m20 * b.m32 + a.m30 * b.m33,
   a.m01 * b.m30 + a.m11 * b.m31 + a.m21 * b.m32 + a.m31 * b.m33,
   a.m02 * b.m30 + a.m12 * b.m31 + a.m22 * b.m32 + a.m32 * b.m33,
   a.m03 * b.m30 + a.m13 * b.m31 + a.m23 * b.m32 + a.m33 * b.m33⟩

/-- Matrix-vector product 'M * v' (column-major): row `r` of the result is
the dot product of row `r` of `M` with `v`. -/
def Mat4.mulVec (m : Mat4) (v : Vec4) : Vec4 :=
  ⟨m.m00 * v.x + m.m10 * v.y + m.m20 * v.z + m.m30 * v.w,
   m.m01 * v.x + m.m11 * v.y + m.m21 * v.z + m.m31 * v.w,
   m.m02 * v.x + m.m12 * v.y + m.m22 * v.z + m.m32 * v.w,
   m.m03 * v.x + m.m13 * v.y + m.m23 * v.z + m.m33 * v.w⟩

/-- Determinant of a 3x3 matrix given row-major. -/
def det3 (a b c d e f g h i : ℝ) : ℝ :=
  a * (e * i - f * h) - b * (d * i - f * g) + c * (d * h - e * g)

/-- Determinant, `glm.determinant`: cofactor expansion along the first row
(entry at row `r`, column `c` is `mCR` with `C = c`, `R = r`). -/
def Mat4.det (m : Mat4) : ℝ :=
    m.m00 * det3 m.m11 m.m21 m.m31 m.m12 m.m22 m.m32 m.m13 m.m23 m.m33
  - m.m10 * det3 m.m01 m.m21 m.m31 m.m02 m.m22 m.m32 m.m03 m.m23 m.m33
  + m.m20 * det3 m.m01 m.m11 m.m31 m.m02 m.m12 m.m32 m.m03 m.m13 m.m33
  - m.m30 * det3 m.m01 m.m11 m.m21 m.m02 m.m12 m.m22 m.m03 m.m13 m.m23

/-- Matrix inverse, `glm.inverse`: adjugate over determinant. The entry of
the inverse at row `r`, column `c` is `(-1)^(r+c)` times the 3x3 minor of
the matrix obtained by deleting row `c` and column `r`, divided by the
determinant. -/
def Mat4.inverse (m : Mat4) : Mat4 :=
  let d := m.det
  ⟨  (det3 m.m11 m.m21 m.m31 m.m12 m.m22 m.m32 m.m13 m.m23 m.m33) / d,
   - (det3 m.m01 m.m21 m.m31 m.m02 m.m22 m.m32 m.m03 m.m23 m.m33) / d,
     (det3 m.m01 m.m11 m.m31 m.m02 m.m12 m.m32 m.m03 m.m13 m.m33) / d,
   - (det3 m.m01 m.m11 m.m21 m.m02 m.m12 m.m22 m.m03 m.m13 m.m23) / d,
   - (det3 m.m10 m.m20 m.m30 m.m12 m.m22 m.m32 m.m13 m.m23 m.m33) / d,
     (det3 m.m00 m.m20 m.m30 m.m02 m.m22 m.m32 m.m03 m.m23 m.m33) / d,
   - (det3 m.m00 m.m10 m.m30 m.m02 m.m12 m.m32 m.m03 m.m13 m.m33) / d,
     (det3 m.m00 m.m10 m.m20 m.m02 m.m12 m.m22 m.m03 m.m13 m.m23) / d,
     (det3 m.m10 m.m20 m.m30 m.m11 m.m21 m.m31 m.m13 m.m23 m.m33) / d,
   - (det3 m.m00 m.m20 m.m30 m.m01 m.m21 m.m31 m.m03 m.m23 m.m33) / d,
     (det3 m.m00 m.m10 m.m30 m.m01 m.m11 m.m31 m.m03 m.m13 m.m33) / d,
   - (det3 m.m00 m.m10 m.m20 m.m01 m.m11 m.m21 m.m03 m.m13 m.m23) / d,
   - (det3 m.m10 m.m20 m.m30 m.m11 m.m21 m.m31 m.m12 m.m22 m.m32) / d,
     (det3 m.m00 m.m20 m.m30 m.m01 m.m21 m.m31 m.m02 m.m22 m.m32) / d,
   - (det3 m.m00 m.m10 m.m30 m.m01 m.m11 m.m31 m.m02 m.m12 m.m32) / d,
     (det3 m.m00 m.m10 m.m20 m.m01 m.m11 m.m21 m.m02 m.m12 m.m22) / d⟩

/-- Right-handed look-at matrix, `glm.lookAt` (GLM `lookAtRH`): rows of the
rotational part are `s`, `u`, `-f`; last column holds the translations. -/
noncomputable def lookAt (eye center up : Vec3) : Mat4 :=
  let f := Vec3.normalize (Vec3.sub center eye)
  let s := Vec3.normalize (Vec3.cross f up)
  let u := Vec3.cross s f
  ⟨s.x, u.x, -f.x, 0,
   s.y, u.y, -f.y, 0,
   s.z, u.z, -f.z, 0,
   -(Vec3.dot s eye), -(Vec3.dot u eye), Vec3.dot f eye, 1⟩

/-! Configuration constants from `src/config/settings.py`. -/

/-- Camera settings `CameraSettings.DEFAULT_ZOOM` (settings.py line 15). -/
def CameraSettings.DEFAULT_ZOOM : ℝ := 5.0

/-- Camera settings `CameraSettings.DEFAULT_ROTATION_X` (settings.py line 18). -/
def CameraSettings.DEFAULT_ROTATION_X : ℝ := -35.264

/-- Camera settings `CameraSettings.DEFAULT_ROTATION_Y` (settings.py line 19). -/
def CameraSettings.DEFAULT_ROTATION_Y : ℝ := -45.0

/-- Camera settings `CameraSettings.FIELD_OF_VIEW` (settings.py line 22). -/
def CameraSettings.FIELD_OF_VIEW : ℝ := 45.0

/-- Camera settings `CameraSettings.NEAR_PLANE` (settings.py line 23). -/
def CameraSettings.NEAR_PLANE : ℝ := 0.1

/-- Camera settings `CameraSettings.FAR_PLANE` (settings.py line 24). -/
def CameraSettings.FAR_PLANE : ℝ := 10000.0

/-- Input settings `InputSettings.ROTATION_SENSITIVITY` (settings.py line 34). -/
def InputSettings.ROTATION_SENSITIVITY : ℝ := 0.005

/-- Input settings `InputSettings.PAN_SENSITIVITY_FACTOR` (settings.py line 35). -/
def InputSettings.PAN_SENSITIVITY_FACTOR : ℝ := 0.01

/-- Input settings `InputSettings.ZOOM_SENSITIVITY_FACTOR` (settings.py line 36). -/
def InputSettings.ZOOM_SENSITIVITY_FACTOR : ℝ := 0.1

/-- Input settings `InputSettings.MATRIX_DETERMINANT_THRESHOLD` (settings.py line 39). -/
def InputSettings.MATRIX_DETERMINANT_THRESHOLD : ℝ := 1e-10

/-- Mesh settings `MeshSettings.MAX_COORDINATE_VALUE` (settings.py line 63),
used by the validation code over exact rationals. -/
def MeshSettings.MAX_COORDINATE_VALUE : ℚ := 1e6

/-! Camera model from `src/core/camera.py` (`class ArcballCamera`). -/

/-- State of an `ArcballCamera` (camera.py lines 9 to 28). The projection is
an `Option` because its float-faithful computation can produce non-finite
entries (modelled as `none`, see `perspectiveF`). -/
structure Camera where
  width : ℤ
  height : ℤ
  zoom : ℝ
  rotation : Quat
  view : Mat4
  projection : Option Mat4
  viewDirty : Bool
  projectionDirty : Bool
  cachedPosition : Option Vec3

/-- IEEE-faithful scalar division: a zero denominator yields a non-finite
float (Inf or NaN), modelled as `none`. -/
def fdiv (a b : ℝ) : Option ℝ := if b = 0 then none else some (a / b)

/-- Perspective projection, `glm.perspective` (GLM `perspectiveRH_NO`), with
IEEE-faithful divisions: the result is `none` exactly when some entry of the
float matrix would be Inf or NaN. Entries (column-major): `[0][0] = 1 /
(aspect * tanHalfFovy)`, `[1][1] = 1 / tanHalfFovy`, `[2][2] = -(far + near)
/ (far - near)`, `[2][3] = -1`, `[3][2] = -(2 * far * near) / (far - near)`. -/
def perspectiveF (fovy aspect near far : ℝ) : Option Mat4 := do
  let tanHalfFovy := Real.tan (fovy / 2)
  let a ← fdiv 1 (aspect * tanHalfFovy)
  let b ← fdiv 1 tanHalfFovy
  let c ← fdiv (far + near) (far - near)
  let e ← fdiv (2 * far * near) (far - near)
  pure ⟨a, 0, 0, 0, 0, b, 0, 0, 0, 0, -c, -1, 0, 0, -e, 0⟩

/-- Fixed isometric camera rotation set in `ArcballCamera.__init__`
(camera.py lines 18 to 20): `rot_y * rot_x` with `rot_x` about `(1,0,0)` by
`DEFAULT_ROTATION_X` degrees and `rot_y` about `(0,1,0)` by
`DEFAULT_ROTATION_Y` degrees. -/
def camInitRotation : Quat :=
  Quat.mul (angleAxis (radians CameraSettings.DEFAULT_ROTATION_Y) ⟨0, 1, 0⟩)
    (angleAxis (radians CameraSettings.DEFAULT_ROTATION_X) ⟨1, 0, 0⟩)

/-- Method `ArcballCamera.set_viewport` (camera.py lines 30 to 42): stores
the viewport, recomputes the perspective projection with aspect `w / h` when
`h > 0` and `1.0` otherwise, and clears the projection dirty flag. -/
def ArcballCamera.set_viewport (c : Camera) (width height : ℤ) : Camera :=
  let aspect : ℝ := if height > 0 then (width : ℝ) / (height : ℝ) else 1.0
  { c with
    width := width
    height := height
    projection := perspectiveF (radians CameraSettings.FIELD_OF_VIEW) aspect
      CameraSettings.NEAR_PLANE CameraSettings.FAR_PLANE
    projectionDirty := false }

/-- Constructor `ArcballCamera.__init__` (camera.py lines 9 to 28): default
zoom, fixed isometric rotation, identity cached matrices, dirty flags set,
then `set_viewport(width, height)`. -/
def ArcballCamera.init (width height : ℤ) : Camera :=
  ArcballCamera.set_viewport
    { width := width
      height := height
      zoom := CameraSettings.DEFAULT_ZOOM
      rotation := camInitRotation
      view := mat4id
      projection := some mat4id
      viewDirty := true
      projectionDirty := true
      cachedPosition := none } width height

/-- View matrix recomputation inside `ArcballCamera.get_view_matrix`
(camera.py lines 46 to 57): eye and up are the fixed rotation applied to
`(0,0,zoom)` and `(0,1,0)`, view is `glm.lookAt(eye, origin, up)`. -/
def computeViewMatrix (rotation : Quat) (zoom : ℝ) : Mat4 :=
  let eye_pos : Vec3 := ⟨0, 0, zoom⟩
  let up : Vec3 := ⟨0, 1, 0⟩
  let rot_mat := mat4Cast rotation
  let final_eye_pos := (rot_mat.mulVec (eye_pos.toVec4 1)).toVec3
  let final_up := (rot_mat.mulVec (up.toVec4 0)).toVec3
  lookAt final_eye_pos ⟨0, 0, 0⟩ final_up

/-- Method `ArcballCamera.get_view_matrix` (camera.py lines 44 to 59):
recompute and cache when dirty, otherwise return the cached matrix. -/
def ArcballCamera.get_view_matrix (c : Camera) : Camera × Mat4 :=
  if c.viewDirty then
    let v := computeViewMatrix c.rotation c.zoom
    ({ c with view := v, viewDirty := false }, v)
  else (c, c.view)

/-- Property `ArcballCamera.position` (camera.py lines 64 to 71): cached
world-space eye position, recomputed when absent or when the view is dirty. -/
def ArcballCamera.position (c : Camera) : Camera × Vec3 :=
  if c.cachedPosition.isNone || c.viewDirty then
    let p := ((mat4Cast c.rotation).mulVec (Vec4.mk 0 0 c.zoom 1)).toVec3
    ({ c with cachedPosition := some p }, p)
  else (c, c.cachedPosition.getD ⟨0, 0, 0⟩)

/-- Method `ArcballCamera.view_direction` (camera.py lines 73 to 75):
normalized vector from the camera position to the origin. -/
def ArcballCamera.view_direction (c : Camera) : Camera × Vec3 :=
  let (c1, p) := ArcballCamera.position c
  (c1, Vec3.normalize (Vec3.sub ⟨0, 0, 0⟩ p))

/-- Method `ArcballCamera.set_zoom` (camera.py lines 87 to 92): no-op when
the zoom is unchanged, otherwise store it and dirty the view and position. -/
def ArcballCamera.set_zoom (c : Camera) (zoom : ℝ) : Camera :=
  if c.zoom ≠ zoom then
    { c with zoom := zoom, viewDirty := true, cachedPosition := none }
  else c

/-- Method `ArcballCamera.set_rotation` (camera.py lines 94 to 98). -/
def ArcballCamera.set_rotation (c : Camera) (rotation : Quat) : Camera :=
  { c with rotation := rotation, viewDirty := true, cachedPosition := none }

/-- Method `ArcballCamera.invalidate_cache` (camera.py lines 100 to 103). -/
def ArcballCamera.invalidate_cache (c : Camera) : Camera :=
  { c with viewDirty := true, cachedPosition := none }

/-! Scene model from `src/core/scene.py` (`class Scene`) and the scene-side
view of `src/core/mesh.py` (`class Mesh`). -/

/-- Scene-side state of a constructed `Mesh` (mesh.py): visibility and
selection flags (lines 17 to 18), the axis-aligned bounds of its
`trimesh_mesh` (`trimesh_mesh.bounds`, used by `Scene.get_bounds`), and its
`RayMeshIntersector` (line 44), modelled as a function from a model-space ray
origin and direction to either the list of intersection locations returned by
`intersects_location` or the message of a raised exception. -/
structure Mesh where
  name : String
  visible : Bool
  selected : Bool
  bmin : Vec3
  bmax : Vec3
  intersector : Vec3 → Vec3 → Except String (List Vec3)

/-- Scene state (scene.py lines 10 to 15). -/
structure Scene where
  meshes : List Mesh
  rotation : Quat
  translation : Vec3
  center : Vec3
  scale : ℝ

/-- Constructor `Scene.__init__` (scene.py lines 10 to 15): no meshes,
identity rotation `glm.quat(1.0, 0.0, 0.0, 0.0)`, zero translation and
center, scale `1.0`. -/
def Scene.init : Scene :=
  { meshes := [], rotation := ⟨1, 0, 0, 0⟩, translation := ⟨0, 0, 0⟩,
    center := ⟨0, 0, 0⟩, scale := 1.0 }

/-- Componentwise minimum, `np.minimum` on 3-vectors. -/
def vmin (a b : Vec3) : Vec3 := ⟨min a.x b.x, min a.y b.y, min a.z b.z⟩

/-- Componentwise maximum, `np.maximum` on 3-vectors. -/
def vmax (a b : Vec3) : Vec3 := ⟨max a.x b.x, max a.y b.y, max a.z b.z⟩

/-- Largest component, `np.max` of a 3-vector. -/
def vmaxComp (v : Vec3) : ℝ := max v.x (max v.y v.z)

/-- Method `Scene.get_bounds` (scene.py lines 42 to 59): the bounding box of
all visible meshes, `(0,0,0), (0,0,0)` when there are no meshes or none is
visible. The source folds `np.minimum`/`np.maximum` starting from the
sentinels `(+inf, -inf)`; over a non-empty list of visible meshes this equals
the fold below started from the first visible mesh's bounds (the reals have
no infinities, and `min`/`max` are idempotent, so seeding the fold with the
first element's bounds absorbs the sentinels). -/
def Scene.get_bounds (s : Scene) : Vec3 × Vec3 :=
  if s.meshes.isEmpty then (⟨0, 0, 0⟩, ⟨0, 0, 0⟩)
  else
    match s.meshes.filter (fun m => m.visible) with
    | [] => (⟨0, 0, 0⟩, ⟨0, 0, 0⟩)
    | m0 :: _ =>
      (s.meshes.filter (fun m => m.visible)).foldl
        (fun acc m => (vmin acc.1 m.bmin, vmax acc.2 m.bmax))
        (m0.bmin, m0.bmax)

/-- Method `Scene.reset_transformations` (scene.py lines 77 to 79): rotation
`glm.quat(0.7071, 0.0, -0.7071, 0.0)` (isometric view) and zero translation;
`center` and `scale` are untouched. -/
def Scene.reset_transformations (s : Scene) : Scene :=
  { s with rotation := ⟨0.7071, 0.0, -0.7071, 0.0⟩, translation := ⟨0, 0, 0⟩ }

/-- Method `Scene.fit_to_view` (scene.py lines 61 to 75): returns `1.0` and
changes nothing when there are no meshes; otherwise sets `center` to the
midpoint of `get_bounds`, `scale` to `max(np.max(max_bounds - min_bounds),
1e-6)`, calls `reset_transformations`, and returns the new scale. -/
def Scene.fit_to_view (s : Scene) : Scene × ℝ :=
  if s.meshes.isEmpty then (s, 1.0)
  else
    let b := s.get_bounds
    let center_point := Vec3.smul (1 / 2) (Vec3.add b.1 b.2)
    let size := vmaxComp (Vec3.sub b.2 b.1)
    let s1 := { s with center := center_point, scale := max size 1e-6 }
    let s2 := s1.reset_transformations
    (s2, s2.scale)

/-- Method `Scene.clear` (scene.py lines 35 to 40): releases and removes all
meshes (resource release is a GPU effect with no model state) and resets the
transformations. -/
def Scene.clear (s : Scene) : Scene :=
  Scene.reset_transformations { s with meshes := [] }

/-! Input handling from `src/core/input_handler.py` (`class InputHandler`). -/

/-- State of an `InputHandler` (input_handler.py lines 13 to 16). -/
structure InputHandler where
  is_left_mouse_pressed : Bool
  is_right_mouse_pressed : Bool
  last_mouse_pos : ℝ × ℝ

/-- Constructor `InputHandler.__init__` (input_handler.py lines 13 to 16). -/
def InputHandler.init : InputHandler :=
  { is_left_mouse_pressed := false, is_right_mouse_pressed := false,
    last_mouse_pos := (0, 0) }

/-- Method `InputHandler.handle_press` (input_handler.py lines 18 to 25). -/
def InputHandler.handle_press (ih : InputHandler) (button : ℤ) (pressed : Bool)
    (x y : ℝ) : InputHandler :=
  let ih1 :=
    if button = 0 then { ih with is_left_mouse_pressed := pressed }
    else if button = 1 then { ih with is_right_mouse_pressed := pressed }
    else ih
  if pressed then { ih1 with last_mouse_pos := (x, y) } else ih1

/-- Camera right basis vector read in `InputHandler.handle_drag`
(input_handler.py line 34): `(view_mat[0][0], view_mat[1][0],
view_mat[2][0])`. -/
def camRightVec (view_mat : Mat4) : Vec3 := ⟨view_mat.m00, view_mat.m10, view_mat.m20⟩

/-- Camera up basis vector read in `InputHandler.handle_drag`
(input_handler.py line 35): `(view_mat[0][1], view_mat[1][1],
view_mat[2][1])`. -/
def camUpVec (view_mat : Mat4) : Vec3 := ⟨view_mat.m01, view_mat.m11, view_mat.m21⟩

/-- Method `InputHandler.handle_drag` (input_handler.py lines 27 to 56):
updates the tracked pointer position; with the left button pressed, composes
the scene rotation with incremental rotations about the camera's up and right
axes; with only the right button pressed, pans the scene translation along
those axes. Reading the view matrix may update the camera's cache, so the
updated camera is returned too. -/
def InputHandler.handle_drag (ih : InputHandler) (s : Scene) (camera : Camera)
    (x y : ℝ) : InputHandler × Scene × Camera :=
  let delta : ℝ × ℝ := (x - ih.last_mouse_pos.1, y - ih.last_mouse_pos.2)
  let ih1 := { ih with last_mouse_pos := (x, y) }
  let vm := ArcballCamera.get_view_matrix camera
  let cam_right_vec := camRightVec vm.2
  let cam_up_vec := camUpVec vm.2
  if ih.is_left_mouse_pressed then
    let sensitivity := InputSettings.ROTATION_SENSITIVITY
    let rot_horizontal := angleAxis (delta.1 * sensitivity) cam_up_vec
    let rot_vertical := angleAxis (delta.2 * sensitivity) cam_right_vec
    (ih1, { s with rotation := Quat.mul (Quat.mul rot_horizontal rot_vertical) s.rotation },
      vm.1)
  else if ih.is_right_mouse_pressed then
    let sensitivity := s.scale * InputSettings.PAN_SENSITIVITY_FACTOR
    let t1 := Vec3.add s.translation (Vec3.smul (delta.1 * sensitivity) cam_right_vec)
    let t2 := Vec3.sub t1 (Vec3.smul (delta.2 * sensitivity) cam_up_vec)
    (ih1, { s with translation := t2 }, vm.1)
  else (ih1, s, vm.1)

/-- Method `InputHandler.handle_wheel` (input_handler.py lines 58 to 62):
moves the scene along the camera's view direction. -/
def InputHandler.handle_wheel (s : Scene) (camera : Camera) (delta : ℝ) :
    Scene × Camera :=
  let sensitivity := s.scale * InputSettings.ZOOM_SENSITIVITY_FACTOR
  let vd := ArcballCamera.view_direction camera
  ({ s with translation := Vec3.add s.translation (Vec3.smul (delta * sensitivity) vd.2) },
    vd.1)

/-- Model matrix built in `InputHandler.handle_pick` (input_handler.py lines
70 to 73): `trans_mat * rot_mat * center_offset`. -/
def pickerModelMatrix (s : Scene) : Mat4 :=
  let trans_mat := translateMat s.translation
  let rot_mat := mat4Cast s.rotation
  let center_offset := translateMat s.center.neg
  (trans_mat.mul rot_mat).mul center_offset

/-- Model matrix built in `Renderer.render` (renderer.py lines 143 to 146):
`trans_mat * rot_mat * center_offset`. -/
def rendererModelMatrix (s : Scene) : Mat4 :=
  let trans_mat := translateMat s.translation
  let rot_mat := mat4Cast s.rotation
  let center_offset := translateMat s.center.neg
  (trans_mat.mul rot_mat).mul center_offset

/-- Mesh loop of `InputHandler.handle_pick` (input_handler.py lines 96 to
116): walks the meshes in order, skipping invisible ones, queries each
intersector, and keeps the hit with the smallest distance from the
model-space ray origin. The accumulator is the closest hit so far as
`(mesh index, location, distance)`; `none` models the initial
`closest_distance = inf` state, which any finite distance beats. The source
has no exception handling here, so an intersector error propagates. -/
def pickLoop : List Mesh → ℕ → Vec3 → Vec3 →
    Option (ℕ × Vec3 × ℝ) → Except String (Option (ℕ × Vec3 × ℝ))
  | [], _, _, _, best => .ok best
  | mesh :: rest, i, origin_ms, dir_ms, best =>
    if mesh.visible = false then pickLoop rest (i + 1) origin_ms dir_ms best
    else do
      let locs ← mesh.intersector origin_ms dir_ms
      let best1 := locs.foldl
        (fun acc loc =>
          let distance := Vec3.len (Vec3.sub loc origin_ms)
          match acc with
          | none => some (i, loc, distance)
          | some (j, l, d) =>
            if distance < d then some (i, loc, distance) else some (j, l, d))
        best
      pickLoop rest (i + 1) origin_ms dir_ms best1

/-- Selection toggle performed at the end of `InputHandler.handle_pick`
(input_handler.py line 119) on the closest mesh, identified by its index in
the scene's mesh list. -/
def toggleSelectedAt (meshes : List Mesh) (i : ℕ) : List Mesh :=
  meshes.mapIdx (fun j m => if j = i then { m with selected := !m.selected } else m)

/-- Method `InputHandler.handle_pick` (input_handler.py lines 64 to 133).
The world-space ray is produced by `camera.screen_ray(x, y, width, height)`
and `camera.position` (lines 66 to 67); that computation does not depend on
the scene and is passed in here as `ray_origin_ws`, `ray_dir_ws`. The method
builds the model matrix, aborts with no result when its determinant is below
the threshold, otherwise transforms the ray to model space, scans the visible
meshes for the nearest hit, and toggles the selection of the hit mesh. The
source formats the hit coordinates into the returned message; the embedding
keeps the message prefix and mesh name. `Except.error` models an exception
escaping the method. -/
def InputHandler.handle_pick (s : Scene) (ray_origin_ws ray_dir_ws : Vec3) :
    Except String (Scene × Option String) :=
  let trans_mat := translateMat s.translation
  let rot_mat := mat4Cast s.rotation
  let center_offset := translateMat s.center.neg
  let model_mat := (trans_mat.mul rot_mat).mul center_offset
  let det := model_mat.det
  if |det| < InputSettings.MATRIX_DETERMINANT_THRESHOLD then .ok (s, none)
  else
    let inv_model_mat := model_mat.inverse
    let origin_ms := (inv_model_mat.mulVec (ray_origin_ws.toVec4 1)).toVec3
    let dir_ms := Vec3.normalize ((inv_model_mat.mulVec (ray_dir_ws.toVec4 0)).toVec3)
    do
      let best ← pickLoop s.meshes 0 origin_ms dir_ms none
      match best with
      | none => pure (s, none)
      | some (i, loc, _) =>
        let s1 := { s with meshes := toggleSelectedAt s.meshes i }
        let name := (s.meshes.getD i
          { name := "", visible := false, selected := false,
            bmin := ⟨0, 0, 0⟩, bmax := ⟨0, 0, 0⟩,
            intersector := fun _ _ => .ok [] }).name
        let _world := (model_mat.mulVec (loc.toVec4 1)).toVec3
        pure (s1, some ("Toggled selection on " ++ name))

/-! Mesh validation from `src/core/mesh.py` (`Mesh._validate_mesh_data`).
Geometry arrays are exact here, so this part is stated over the rationals:
a float array entry is `some q` when finite and `none` when NaN or Inf. -/

/-- Numpy float array as seen by the validation code: its `shape` and its
flattened entries, `none` standing for a NaN or Inf entry. -/
structure FloatArr where
  shape : List ℕ
  data : List (Option ℚ)

/-- Numpy integer array as seen by the validation code (face indices). -/
structure IntArr where
  shape : List ℕ
  data : List ℤ

/-- Attributes of a `trimesh.Trimesh` object read by the validation code;
`faces` and `vertex_normals` are optional because the source guards them with
`hasattr`. -/
structure TrimeshData where
  vertices : Option FloatArr
  faces : Option IntArr
  vertex_normals : Option FloatArr

/-- Length `len(arr)` of a numpy array: its first shape component. -/
def FloatArr.count (a : FloatArr) : ℕ := a.shape.headD 0

/-- Length `len(arr)` of a numpy integer array. -/
def IntArr.count (a : IntArr) : ℕ := a.shape.headD 0

/-- Test `np.any(np.isnan(a)) or np.any(np.isinf(a))`. -/
def FloatArr.hasNonFinite (a : FloatArr) : Bool := a.data.any Option.isNone

/-- Value `np.max(np.abs(a))` over an array of finite entries. The fold is
seeded with `0`; absolute values are nonnegative, so over a non-empty
all-finite array (the only state in which the source evaluates it) this
equals the numpy maximum. -/
def FloatArr.maxAbs (a : FloatArr) : ℚ :=
  a.data.foldl (fun acc x => max acc |x.getD 0|) 0

/-- Value `np.max(a)` over a non-empty integer array, seeded with the first
entry. -/
def IntArr.maxEntry (a : IntArr) : ℤ := a.data.foldl max (a.data.headD 0)

/-- Value `np.min(a)` over a non-empty integer array, seeded with the first
entry. -/
def IntArr.minEntry (a : IntArr) : ℤ := a.data.foldl min (a.data.headD 0)

/-- Trailing normals checks of `Mesh._validate_mesh_data` (mesh.py lines 87
to 93), reached on every path that has not raised: when `vertex_normals` is
present, its length must match the vertex count and it must be finite. -/
def Mesh.checkNormals (nso : Option FloatArr) (vertices : FloatArr) :
    Except String Unit :=
  match nso with
  | some normals =>
    if normals.count ≠ vertices.count then
      .error "Normal count does not match vertex count"
    else if normals.hasNonFinite then
      .error "Mesh contains invalid normal data (NaN or Inf values)"
    else .ok ()
  | none => .ok ()

/-- Method `Mesh._validate_mesh_data` (mesh.py lines 48 to 93), with each
`raise ValueError` modelled as returning the error. Messages keep the
source's fixed text; the values the source interpolates into them are
elided. -/
def Mesh.validate_mesh_data (trimesh_mesh : Option TrimeshData) :
    Except String Unit :=
  match trimesh_mesh with
  | none => .error "Mesh object cannot be None"
  | some t =>
    match t.vertices with
    | none => .error "Mesh has no vertices"
    | some vertices =>
      if vertices.count = 0 then .error "Mesh has no vertices"
      else if ¬(vertices.shape.length = 2 ∧ vertices.shape.getD 1 0 = 3) then
        .error "Invalid vertex data shape, expected (N, 3)"
      else if vertices.hasNonFinite then
        .error "Mesh contains invalid vertex data (NaN or Inf values)"
      else if vertices.maxAbs > MeshSettings.MAX_COORDINATE_VALUE then
        .error "Mesh coordinates too large"
      else
        match t.faces with
        | some faces =>
          if faces.count > 0 then
            if ¬(faces.shape.length = 2 ∧ faces.shape.getD 1 0 = 3) then
              .error "Invalid face data shape, expected (N, 3)"
            else if faces.maxEntry > (vertices.count : ℤ) - 1 then
              .error "Face indices reference non-existent vertices"
            else if faces.minEntry < 0 then
              .error "Face indices cannot be negative"
            else Mesh.checkNormals t.vertex_normals vertices
          else Mesh.checkNormals t.vertex_normals vertices
        | none => Mesh.checkNormals t.vertex_normals vertices

/-- Rejection conditions listed by the specification for MeshAsset
construction: geometry absent, no vertices, bad vertex shape, non-finite
vertices, oversized coordinates, bad faces (when present and non-empty),
normal count mismatch or non-finite normals (when normals are present). -/
def meshRejected (trimesh_mesh : Option TrimeshData) : Prop :=
  match trimesh_mesh with
  | none => True
  | some t =>
    match t.vertices with
    | none => True
    | some vertices =>
      vertices.count = 0 ∨
      ¬(vertices.shape.length = 2 ∧ vertices.shape.getD 1 0 = 3) ∨
      vertices.hasNonFinite ∨
      vertices.maxAbs > MeshSettings.MAX_COORDINATE_VALUE ∨
      (match t.faces with
       | some faces =>
         faces.count > 0 ∧
           (¬(faces.shape.length = 2 ∧ faces.shape.getD 1 0 = 3) ∨
            faces.maxEntry > (vertices.count : ℤ) - 1 ∨
            faces.minEntry < 0)
       | none => False) ∨
      (match t.vertex_normals with
       | some normals =>
         normals.count ≠ vertices.count ∨ normals.hasNonFinite = true
       | none => False)

/-- Test for an `Except` value being an error. -/
def Except.isError : Except String Unit → Bool
  | .error _ => true
  | .ok _ => false

/-! Supporting lemmas and concrete inputs. -/

@[simp] theorem except_throw_bind {α β : Type} (e : String)
    (k : α → Except String β) : ((throw e : Except String α) >>= k) = throw e := rfl

@[simp] theorem except_pure_bind {α β : Type} (a : α)
    (k : α → Except String β) : ((pure a : Except String α) >>= k) = k a := rfl

@[simp] theorem except_throw_eq_error {α : Type} (e : String) :
    (throw e : Except String α) = Except.error e := rfl

@[simp] theorem except_error_bind {α β : Type} (e : String)
    (k : α → Except String β) :
    ((Except.error e : Except String α) >>= k) = Except.error e := rfl

@[simp] theorem except_ok_bind {α β : Type} (a : α)
    (k : α → Except String β) :
    ((Except.ok a : Except String α) >>= k) = k a := rfl

@[simp] theorem isError_error (e : String) :
    (Except.error e : Except String Unit).isError = true := rfl

@[simp] theorem isError_ok (a : Unit) :
    (Except.ok a : Except String Unit).isError = false := rfl

/-- Scene whose model matrix is singular: the rotation quaternion
`(0, 0, 0.5, 0.5)` is mapped by `mat4_cast` to a matrix with first column
zero, so the determinant is exactly zero. -/
def singularScene : Scene :=
  { meshes := [], rotation := ⟨0, 0, 0.5, 0.5⟩, translation := ⟨0, 0, 0⟩,
    center := ⟨0, 0, 0⟩, scale := 1.0 }

/-- Visible mesh bounded by the cube from `(-1,-1,-1)` to `(1,1,1)`. -/
def unitCubeMesh : Mesh :=
  { name := "cube", visible := true, selected := false,
    bmin := ⟨-1, -1, -1⟩, bmax := ⟨1, 1, 1⟩, intersector := fun _ _ => .ok [] }

/-- Scene holding only `unitCubeMesh`. -/
def unitCubeScene : Scene := { Scene.init with meshes := [unitCubeMesh] }

/-- Visible point-like mesh: both bound corners at the origin. -/
def pointMesh : Mesh :=
  { name := "point", visible := true, selected := false,
    bmin := ⟨0, 0, 0⟩, bmax := ⟨0, 0, 0⟩, intersector := fun _ _ => .ok [] }

/-- Scene holding only `pointMesh`. -/
def pointScene : Scene := { Scene.init with meshes := [pointMesh] }

/-! Claim theorems. -/

/-- Claim C6: for every scene state, the model matrix built by the picker in
`handle_pick` and the model matrix built by the renderer are identical, and
both equal `Translate(translation) * Rotate(rotation) * Translate(-center)`
in exactly that composition order (stated in both associations; the product
is associative). -/
theorem C6_model_matrix_consistent (s : Scene) :
    pickerModelMatrix s = rendererModelMatrix s ∧
    pickerModelMatrix s =
      ((translateMat s.translation).mul (mat4Cast s.rotation)).mul
        (translateMat s.center.neg) ∧
    pickerModelMatrix s =
      (translateMat s.translation).mul
        ((mat4Cast s.rotation).mul (translateMat s.center.neg)) := by
  refine ⟨rfl, rfl, ?_⟩
  simp only [pickerModelMatrix, translateMat, mat4Cast, Mat4.mul]
  ext <;> ring

/-- Claim C2: whenever the model matrix
`Translate(translation) * Rotate(rotation) * Translate(-center)` has
absolute determinant below `MATRIX_DETERMINANT_THRESHOLD` (1e-10),
`handle_pick` returns no result without raising, and the scene — including
every mesh's `selected` flag — is unchanged. -/
theorem C2_singular_pick_no_result (s : Scene) (ray_origin_ws ray_dir_ws : Vec3)
    (h : |(pickerModelMatrix s).det| < InputSettings.MATRIX_DETERMINANT_THRESHOLD) :
    InputHandler.handle_pick s ray_origin_ws ray_dir_ws = .ok (s, none) := by
  simp only [pickerModelMatrix] at h
  simp only [InputHandler.handle_pick]
  rw [if_pos h]

/-- Witness for C2 at a concrete singular scene: the determinant is zero,
hence below the threshold, and the pick returns no result and leaves the
scene unchanged. -/
theorem C2_singular_pick_no_result_witness :
    |(pickerModelMatrix singularScene).det| <
      InputSettings.MATRIX_DETERMINANT_THRESHOLD ∧
    InputHandler.handle_pick singularScene ⟨0, 0, 5⟩ ⟨0, 0, -1⟩ =
      .ok (singularScene, none) := by
  have hdet : |(pickerModelMatrix singularScene).det| <
      InputSettings.MATRIX_DETERMINANT_THRESHOLD := by
    norm_num [pickerModelMatrix, singularScene, translateMat, mat4Cast,
      Mat4.mul, Mat4.det, det3, InputSettings.MATRIX_DETERMINANT_THRESHOLD]
  exact ⟨hdet, C2_singular_pick_no_result singularScene ⟨0, 0, 5⟩ ⟨0, 0, -1⟩ hdet⟩

/-- Claim C7: on a scene with a non-empty mesh list, `fit_to_view` sets the
center to the midpoint of the visible meshes' bounding box, sets the scale
to `max(largest bounds extent, 1e-6)` (hence positive), resets rotation and
translation to the default pose, and returns the new scale; in particular a
single visible mesh bounded by `[-1,-1,-1]` to `[1,1,1]` yields center
`(0,0,0)` and scale `2`. -/
theorem C7_fit_to_view_frames_scene :
    (∀ s : Scene, s.meshes ≠ [] →
      (s.fit_to_view.1.center =
          Vec3.smul (1 / 2) (Vec3.add s.get_bounds.1 s.get_bounds.2) ∧
        s.fit_to_view.1.scale =
          max (vmaxComp (Vec3.sub s.get_bounds.2 s.get_bounds.1)) 1e-6 ∧
        0 < s.fit_to_view.1.scale ∧
        s.fit_to_view.1.rotation = ⟨0.7071, 0.0, -0.7071, 0.0⟩ ∧
        s.fit_to_view.1.translation = ⟨0, 0, 0⟩ ∧
        s.fit_to_view.2 = s.fit_to_view.1.scale)) ∧
    unitCubeScene.fit_to_view.1.center = ⟨0, 0, 0⟩ ∧
    unitCubeScene.fit_to_view.2 = 2 := by
  constructor
  · intro s hs
    obtain ⟨ms, rot, tr, ce, sc⟩ := s
    cases ms with
    | nil => exact absurd rfl hs
    | cons m rest =>
      refine ⟨rfl, rfl, ?_, rfl, rfl, rfl⟩
      simp only [Scene.fit_to_view, List.isEmpty_cons, Bool.false_eq_true,
        if_false, Scene.reset_transformations]
      have : (0 : ℝ) < 1e-6 := by norm_num
      exact lt_of_lt_of_le this (le_max_right _ _)
  · constructor
    · norm_num [unitCubeScene, unitCubeMesh, Scene.init, Scene.fit_to_view,
        Scene.get_bounds, Scene.reset_transformations, vmin, vmax, Vec3.add,
        Vec3.smul]
    · norm_num [unitCubeScene, unitCubeMesh, Scene.init, Scene.fit_to_view,
        Scene.get_bounds, Scene.reset_transformations, vmin, vmax, vmaxComp,
        Vec3.sub]

/-- Witness for C7 at the unit-cube scene: the mesh list is non-empty and
the framing equations hold there. -/
theorem C7_fit_to_view_frames_scene_witness :
    unitCubeScene.meshes ≠ [] ∧
    (unitCubeScene.fit_to_view.1.center =
        Vec3.smul (1 / 2)
          (Vec3.add unitCubeScene.get_bounds.1 unitCubeScene.get_bounds.2) ∧
      unitCubeScene.fit_to_view.1.scale =
        max (vmaxComp
          (Vec3.sub unitCubeScene.get_bounds.2 unitCubeScene.get_bounds.1)) 1e-6 ∧
      0 < unitCubeScene.fit_to_view.1.scale ∧
      unitCubeScene.fit_to_view.1.rotation = ⟨0.7071, 0.0, -0.7071, 0.0⟩ ∧
      unitCubeScene.fit_to_view.1.translation = ⟨0, 0, 0⟩ ∧
      unitCubeScene.fit_to_view.2 = unitCubeScene.fit_to_view.1.scale) := by
  have h : unitCubeScene.meshes ≠ [] := by simp [unitCubeScene]
  exact ⟨h, C7_fit_to_view_frames_scene.1 unitCubeScene h⟩

/-- Claim C8: `fit_to_view` on a scene with no meshes returns `1.0` and
leaves the whole scene state (center, scale, rotation, translation)
unchanged, performing no reset; on a scene whose visible meshes have zero
extent it sets and returns the epsilon floor `1e-6`, never `0`. -/
theorem C8_fit_to_view_degenerate :
    (∀ s : Scene, s.meshes = [] → s.fit_to_view = (s, 1.0)) ∧
    (∀ s : Scene, s.meshes ≠ [] →
      vmaxComp (Vec3.sub s.get_bounds.2 s.get_bounds.1) = 0 →
      s.fit_to_view.1.scale = 1e-6 ∧ s.fit_to_view.2 = 1e-6 ∧
      s.fit_to_view.1.scale ≠ 0) := by
  constructor
  · intro s hs
    simp [Scene.fit_to_view, hs]
  · intro s hs hext
    obtain ⟨ms, rot, tr, ce, sc⟩ := s
    cases ms with
    | nil => exact absurd rfl hs
    | cons m rest =>
      simp only [Scene.fit_to_view, List.isEmpty_cons, Bool.false_eq_true,
        if_false, Scene.reset_transformations] at hext ⊢
      rw [hext]
      norm_num

/-- Witness for C8: the empty scene keeps its state and yields `1.0`, and
the point-mesh scene has zero extent and gets the epsilon scale. -/
theorem C8_fit_to_view_degenerate_witness :
    (Scene.init.meshes = [] ∧ Scene.init.fit_to_view = (Scene.init, 1.0)) ∧
    (pointScene.meshes ≠ [] ∧
      vmaxComp (Vec3.sub pointScene.get_bounds.2 pointScene.get_bounds.1) = 0 ∧
      pointScene.fit_to_view.1.scale = 1e-6 ∧ pointScene.fit_to_view.2 = 1e-6 ∧
      pointScene.fit_to_view.1.scale ≠ 0) := by
  have h1 : Scene.init.meshes = [] := rfl
  have h2 : pointScene.meshes ≠ [] := by simp [pointScene, Scene.init]
  have h3 : vmaxComp (Vec3.sub pointScene.get_bounds.2 pointScene.get_bounds.1) = 0 := by
    simp [pointScene, pointMesh, Scene.init, Scene.get_bounds, vmin, vmax,
      vmaxComp, Vec3.sub]
  have h4 := C8_fit_to_view_degenerate.2 pointScene h2 h3
  exact ⟨⟨h1, C8_fit_to_view_degenerate.1 Scene.init h1⟩, h2, h3, h4⟩

/-- Geometry with the single vertex `[1e7, 0, 0]` (shape `(1, 3)`). -/
def bigVertexMesh : TrimeshData :=
  { vertices := some ⟨[1, 3], [some 1e7, some 0, some 0]⟩,
    faces := none, vertex_normals := none }

/-- Geometry with vertices `[[0,0,0],[1,0,0],[0.5,1,0]]`, the face
`[0,1,2]`, and the unit normals trimesh derives for that triangle. -/
def triangleMesh : TrimeshData :=
  { vertices := some ⟨[3, 3],
      [some 0, some 0, some 0, some 1, some 0, some 0,
       some 0.5, some 1, some 0]⟩,
    faces := some ⟨[1, 3], [0, 1, 2]⟩,
    vertex_normals := some ⟨[3, 3],
      [some 0, some 0, some 1, some 0, some 0, some 1,
       some 0, some 0, some 1]⟩ }

set_option maxHeartbeats 2000000 in
/-- Claim C3: mesh construction raises a validation error if and only if one
of the listed conditions holds (geometry absent; zero vertices; vertex array
not Nx3; NaN/Inf vertices; coordinate above 1e6; present non-empty face
array not Nx3 or with an index out of range or negative; normals count
mismatch; NaN/Inf normals); in particular the `[1e7,0,0]` mesh is rejected
with the coordinates-too-large error and the unit triangle is accepted. -/
theorem C3_mesh_validation :
    (∀ tm : Option TrimeshData,
      (Mesh.validate_mesh_data tm).isError = true ↔ meshRejected tm) ∧
    Mesh.validate_mesh_data (some bigVertexMesh) =
      .error "Mesh coordinates too large" ∧
    Mesh.validate_mesh_data (some triangleMesh) = .ok () := by
  refine ⟨?_, ?_, ?_⟩
  · intro tm
    rcases tm with _ | ⟨vso, fso, nso⟩
    · simp [Mesh.validate_mesh_data, meshRejected]
    · rcases vso with _ | vs
      · simp [Mesh.validate_mesh_data, meshRejected]
      · rcases fso with _ | fs <;> rcases nso with _ | ns <;>
          simp only [Mesh.validate_mesh_data, Mesh.checkNormals, meshRejected] <;>
          split_ifs <;>
          simp_all [Except.isError, -List.getD_eq_getElem?_getD]
  · norm_num [Mesh.validate_mesh_data, bigVertexMesh, FloatArr.count,
      FloatArr.hasNonFinite, FloatArr.maxAbs, MeshSettings.MAX_COORDINATE_VALUE]
  · simp only [Mesh.validate_mesh_data, Mesh.checkNormals, triangleMesh,
      FloatArr.count, IntArr.count, FloatArr.hasNonFinite, FloatArr.maxAbs,
      IntArr.maxEntry, IntArr.minEntry, MeshSettings.MAX_COORDINATE_VALUE,
      List.foldl, List.any, List.headD, List.length, List.getD, Option.isNone,
      Option.getD]
    norm_num
    intro h
    rw [abs_of_nonneg (by norm_num : (0 : ℚ) ≤ 1 / 2)] at h
    norm_num at h

/-- Witness for C3 at the oversized-vertex geometry: validation errors and
the rejection condition holds. -/
theorem C3_mesh_validation_witness :
    meshRejected (some bigVertexMesh) ∧
    (Mesh.validate_mesh_data (some bigVertexMesh)).isError = true := by
  have h : meshRejected (some bigVertexMesh) := by
    simp only [meshRejected, bigVertexMesh, FloatArr.count, FloatArr.maxAbs,
      FloatArr.hasNonFinite, MeshSettings.MAX_COORDINATE_VALUE, List.foldl,
      Option.getD, List.headD]
    refine Or.inr (Or.inr (Or.inr (Or.inl ?_)))
    rw [abs_of_nonneg (by norm_num : (0 : ℚ) ≤ 1e7)]
    norm_num
  exact ⟨h, (C3_mesh_validation.1 (some bigVertexMesh)).mpr h⟩

/-- Quaternion with zero rotation angle is the identity of the Hamilton
product on the right. -/
theorem quat_mul_identity (q : Quat) : Quat.mul q ⟨1, 0, 0, 0⟩ = q := by
  simp only [Quat.mul]
  ext <;> ring

/-- Angle-axis quaternion at angle zero, for any axis. -/
theorem angleAxis_zero (axis : Vec3) : angleAxis 0 axis = ⟨1, 0, 0, 0⟩ := by
  simp [angleAxis]

/-- Input handler state with the left button held and reference point at the
origin. -/
def leftDragHandler : InputHandler :=
  { is_left_mouse_pressed := true, is_right_mouse_pressed := false,
    last_mouse_pos := (0, 0) }

/-- Claim C4: a drag with the left button held and pointer delta `(dx, dy)`
sets the scene rotation to
`R_up(dx * 0.005) * R_right(dy * 0.005) * old_rotation`, with the rotation
about the camera's up basis vector outermost; in particular a drag of
`(dx = 100, dy = 0)` rotates the scene about the camera's up axis by `0.5`
radians. -/
theorem C4_left_drag_rotation :
    (∀ (ih : InputHandler) (s : Scene) (camera : Camera) (x y : ℝ),
      ih.is_left_mouse_pressed = true →
      (ih.handle_drag s camera x y).2.1.rotation =
        Quat.mul
          (Quat.mul
            (angleAxis ((x - ih.last_mouse_pos.1) *
                InputSettings.ROTATION_SENSITIVITY)
              (camUpVec (ArcballCamera.get_view_matrix camera).2))
            (angleAxis ((y - ih.last_mouse_pos.2) *
                InputSettings.ROTATION_SENSITIVITY)
              (camRightVec (ArcballCamera.get_view_matrix camera).2)))
          s.rotation) ∧
    (∀ (ih : InputHandler) (s : Scene) (camera : Camera),
      ih.is_left_mouse_pressed = true → ih.last_mouse_pos = (0, 0) →
      (ih.handle_drag s camera 100 0).2.1.rotation =
        Quat.mul
          (angleAxis 0.5 (camUpVec (ArcballCamera.get_view_matrix camera).2))
          s.rotation) := by
  have hgen : ∀ (ih : InputHandler) (s : Scene) (camera : Camera) (x y : ℝ),
      ih.is_left_mouse_pressed = true →
      (ih.handle_drag s camera x y).2.1.rotation =
        Quat.mul
          (Quat.mul
            (angleAxis ((x - ih.last_mouse_pos.1) *
                InputSettings.ROTATION_SENSITIVITY)
              (camUpVec (ArcballCamera.get_view_matrix camera).2))
            (angleAxis ((y - ih.last_mouse_pos.2) *
                InputSettings.ROTATION_SENSITIVITY)
              (camRightVec (ArcballCamera.get_view_matrix camera).2)))
          s.rotation := by
    intro ih s camera x y h
    simp [InputHandler.handle_drag, h]
  refine ⟨hgen, ?_⟩
  intro ih s camera h hpos
  rw [hgen ih s camera 100 0 h, hpos]
  have h1 : ((100 : ℝ) - 0) * InputSettings.ROTATION_SENSITIVITY = 0.5 := by
    norm_num [InputSettings.ROTATION_SENSITIVITY]
  have h2 : ((0 : ℝ) - 0) * InputSettings.ROTATION_SENSITIVITY = 0 := by
    norm_num
  rw [h1, h2, angleAxis_zero, quat_mul_identity]

/-- Witness for C4 with a held left button, the default camera, and a
concrete drag to `(100, 0)`. -/
theorem C4_left_drag_rotation_witness :
    leftDragHandler.is_left_mouse_pressed = true ∧
    leftDragHandler.last_mouse_pos = (0, 0) ∧
    (leftDragHandler.handle_drag Scene.init (ArcballCamera.init 800 600)
        100 0).2.1.rotation =
      Quat.mul
        (angleAxis 0.5
          (camUpVec (ArcballCamera.get_view_matrix (ArcballCamera.init 800 600)).2))
        Scene.init.rotation :=
  ⟨rfl, rfl,
    C4_left_drag_rotation.2 leftDragHandler Scene.init
      (ArcballCamera.init 800 600) rfl rfl⟩

/-- Mesh whose ray query raises: its intersector fails on every input, as
`trimesh` `intersects_location` does when the acceleration structure
errors. -/
def failingMesh : Mesh :=
  { name := "failing", visible := true, selected := false,
    bmin := ⟨0, 0, 0⟩, bmax := ⟨0, 0, 0⟩,
    intersector := fun _ _ => .error "ray intersection failed" }

/-- Mesh whose ray query reports a hit at the origin on every input. -/
def hitMesh : Mesh :=
  { name := "hit", visible := true, selected := false,
    bmin := ⟨0, 0, 0⟩, bmax := ⟨0, 0, 0⟩,
    intersector := fun _ _ => .ok [⟨0, 0, 0⟩] }

/-- Scene with identity transform and two visible meshes, the first of which
raises during intersection while the second would report a hit. -/
def twoMeshScene : Scene :=
  { meshes := [failingMesh, hitMesh], rotation := ⟨1, 0, 0, 0⟩,
    translation := ⟨0, 0, 0⟩, center := ⟨0, 0, 0⟩, scale := 1.0 }

/-- Claim C1, evaluated at the failing input: with two visible meshes where
the first mesh's intersection query raises, `handle_pick` propagates the
exception (the mesh loop has no exception handling), so picking does not
continue against the remaining visible mesh and the exception escapes
`handle_pick` — contradicting the claimed per-mesh failure semantics. -/
theorem C1_pick_exception_escapes :
    InputHandler.handle_pick twoMeshScene ⟨0, 0, 5⟩ ⟨0, 0, -1⟩ =
      .error "ray intersection failed" := by
  have hdet : ¬(|(pickerModelMatrix twoMeshScene).det| <
      InputSettings.MATRIX_DETERMINANT_THRESHOLD) := by
    norm_num [pickerModelMatrix, twoMeshScene, translateMat, mat4Cast,
      Mat4.mul, Mat4.det, det3, Vec3.neg,
      InputSettings.MATRIX_DETERMINANT_THRESHOLD]
  simp only [pickerModelMatrix] at hdet
  simp only [InputHandler.handle_pick]
  rw [if_neg hdet]
  simp [twoMeshScene, pickLoop, failingMesh]

/-- Half field of view in radians: `radians(45) / 2 = pi / 8`. -/
theorem half_fov_eq : radians CameraSettings.FIELD_OF_VIEW / 2 = Real.pi / 8 := by
  simp only [radians, CameraSettings.FIELD_OF_VIEW]
  ring

/-- Tangent of the half field of view is positive. -/
theorem tanHalfFovy_pos : 0 < Real.tan (radians CameraSettings.FIELD_OF_VIEW / 2) := by
  rw [half_fov_eq]
  exact Real.tan_pos_of_pos_of_lt_pi_div_two
    (by positivity)
    (by have := Real.pi_pos; linarith)

/-- Claim C10 (amended): `set_viewport` recomputes the projection
immediately (never left dirty) using aspect `w / h` when `h > 0` and `1.0`
when `h ≤ 0`, never dividing by zero in the aspect computation; and whenever
`w ≠ 0` — in particular for every valid viewport width, which callers clamp
to at least 1 — the resulting projection matrix has no NaN or Inf entries.
(For `w = 0` with `h > 0` the aspect is `0` and GLM's `1 / (aspect *
tanHalfFovy)` entry is an IEEE infinity; see the counterexample.) -/
theorem C10_set_viewport_projection :
    (∀ (c : Camera) (w h : ℤ),
      (ArcballCamera.set_viewport c w h).projectionDirty = false) ∧
    (∀ (c : Camera) (w h : ℤ), 0 < h →
      (ArcballCamera.set_viewport c w h).projection =
        perspectiveF (radians CameraSettings.FIELD_OF_VIEW) ((w : ℝ) / (h : ℝ))
          CameraSettings.NEAR_PLANE CameraSettings.FAR_PLANE) ∧
    (∀ (c : Camera) (w h : ℤ), h ≤ 0 →
      (ArcballCamera.set_viewport c w h).projection =
        perspectiveF (radians CameraSettings.FIELD_OF_VIEW) 1.0
          CameraSettings.NEAR_PLANE CameraSettings.FAR_PLANE) ∧
    (∀ (c : Camera) (w h : ℤ), w ≠ 0 →
      ((ArcballCamera.set_viewport c w h).projection).isSome = true) := by
  refine ⟨fun c w h => rfl, ?_, ?_, ?_⟩
  · intro c w h hh
    simp [ArcballCamera.set_viewport, hh]
  · intro c w h hh
    simp [ArcballCamera.set_viewport, not_lt.mpr hh]
  · intro c w h hw
    have htan := tanHalfFovy_pos
    have haspect : (if h > 0 then (w : ℝ) / (h : ℝ) else (1.0 : ℝ)) ≠ 0 := by
      split_ifs with hh
      · exact div_ne_zero (Int.cast_ne_zero.mpr hw)
          (Int.cast_ne_zero.mpr (by omega))
      · norm_num
    simp only [ArcballCamera.set_viewport, perspectiveF, fdiv]
    rw [if_neg (mul_ne_zero haspect (ne_of_gt htan)), if_neg (ne_of_gt htan)]
    norm_num [CameraSettings.NEAR_PLANE, CameraSettings.FAR_PLANE]

/-- Counterexample to C10 as stated: at viewport `(0, 1)` the aspect is `0`
and the float projection has an Inf entry (the model returns `none`), so the
universally quantified claim fails. -/
theorem C10_set_viewport_counterexample :
    (ArcballCamera.set_viewport (ArcballCamera.init 800 600) 0 1).projection
      = none := by
  simp [ArcballCamera.set_viewport, perspectiveF, fdiv]

/-- Witness for C10 at the default viewport `(800, 600)`: positive height,
nonzero width, finite projection. -/
theorem C10_set_viewport_projection_witness :
    ((0 : ℤ) < 600 ∧ (800 : ℤ) ≠ 0) ∧
    (ArcballCamera.set_viewport (ArcballCamera.init 800 600) 800 600).projection =
      perspectiveF (radians CameraSettings.FIELD_OF_VIEW) ((800 : ℝ) / (600 : ℝ))
        CameraSettings.NEAR_PLANE CameraSettings.FAR_PLANE ∧
    ((ArcballCamera.set_viewport (ArcballCamera.init 800 600) 800 600).projection).isSome
      = true := by
  refine ⟨⟨by norm_num, by norm_num⟩, ?_, ?_⟩
  · have := C10_set_viewport_projection.2.1 (ArcballCamera.init 800 600) 800 600
      (by norm_num)
    norm_num at this ⊢
    exact this
  · exact C10_set_viewport_projection.2.2.2 (ArcballCamera.init 800 600) 800 600
      (by norm_num)

/-! Algebraic facts about quaternions and the rotation matrices GLM builds
from them, used for the camera view matrix and the scene rotation claims. -/

/-- Squared quaternion norm is multiplicative. -/
theorem Quat.normSq_mul (p q : Quat) :
    (Quat.mul p q).normSq = p.normSq * q.normSq := by
  simp only [Quat.mul, Quat.normSq]
  ring

/-- Angle-axis quaternions over a unit axis are unit quaternions. -/
theorem normSq_angleAxis (angle : ℝ) (axis : Vec3)
    (h : Vec3.dot axis axis = 1) : (angleAxis angle axis).normSq = 1 := by
  simp only [Vec3.dot] at h
  simp only [angleAxis, Quat.normSq]
  have hsc := Real.sin_sq_add_cos_sq (angle * 0.5)
  linear_combination (Real.sin (angle * 0.5)) ^ 2 * h + hsc

/-- First column of `mat4_cast q` (the image of the x axis). -/
def quatCol0 (q : Quat) : Vec3 :=
  ⟨1 - 2 * (q.y * q.y + q.z * q.z), 2 * (q.x * q.y + q.w * q.z),
    2 * (q.x * q.z - q.w * q.y)⟩

/-- Second column of `mat4_cast q` (the image of the y axis). -/
def quatCol1 (q : Quat) : Vec3 :=
  ⟨2 * (q.x * q.y - q.w * q.z), 1 - 2 * (q.x * q.x + q.z * q.z),
    2 * (q.y * q.z + q.w * q.x)⟩

/-- Third column of `mat4_cast q` (the image of the z axis). -/
def quatCol2 (q : Quat) : Vec3 :=
  ⟨2 * (q.x * q.z + q.w * q.y), 2 * (q.y * q.z - q.w * q.x),
    1 - 2 * (q.x * q.x + q.y * q.y)⟩

/-- Unit quaternions give a unit first column. -/
theorem dot_quatCol0 (q : Quat) (hq : q.normSq = 1) :
    Vec3.dot (quatCol0 q) (quatCol0 q) = 1 := by
  simp only [Quat.normSq] at hq
  simp only [quatCol0, Vec3.dot]
  linear_combination (4 * q.y ^ 2 + 4 * q.z ^ 2) * hq

/-- Unit quaternions give a unit third column. -/
theorem dot_quatCol2 (q : Quat) (hq : q.normSq = 1) :
    Vec3.dot (quatCol2 q) (quatCol2 q) = 1 := by
  simp only [Quat.normSq] at hq
  simp only [quatCol2, Vec3.dot]
  linear_combination (4 * q.x ^ 2 + 4 * q.y ^ 2) * hq

/-- For a unit quaternion the cross product of the third and second columns
is the negated first column (the columns form a right-handed orthonormal
frame). -/
theorem cross_quatCol2_quatCol1 (q : Quat) (hq : q.normSq = 1) :
    Vec3.cross (quatCol2 q) (quatCol1 q) = Vec3.neg (quatCol0 q) := by
  simp only [Quat.normSq] at hq
  simp only [quatCol0, quatCol1, quatCol2, Vec3.cross, Vec3.neg]
  ext
  · linear_combination (-4 * q.x * q.x) * hq
  · linear_combination (-4 * q.x * q.y) * hq
  · linear_combination (-4 * q.x * q.z) * hq

/-- Normalizing a scalar multiple of a unit vector rescales it by the sign
of the scalar; at scalar zero both sides are the zero vector. -/
theorem normalize_smul_unit (a : ℝ) (v : Vec3) (hv : Vec3.dot v v = 1) :
    Vec3.normalize (Vec3.smul a v) = Vec3.smul (a / |a|) v := by
  have hdot : Vec3.dot (Vec3.smul a v) (Vec3.smul a v) = a ^ 2 := by
    simp only [Vec3.dot] at hv
    simp only [Vec3.dot, Vec3.smul]
    linear_combination a ^ 2 * hv
  unfold Vec3.normalize Vec3.len
  rw [hdot, Real.sqrt_sq_eq_abs]
  simp only [Vec3.smul]
  ext <;> ring

/-- Cross product commutes with scalar multiplication on the left. -/
theorem cross_smul_left (a : ℝ) (u v : Vec3) :
    Vec3.cross (Vec3.smul a u) v = Vec3.smul a (Vec3.cross u v) := by
  simp only [Vec3.cross, Vec3.smul]
  ext <;> ring

/-- Rotating the eye position `(0, 0, z)` lands on `z` times the third
rotation column. -/
theorem mulVec_eye (q : Quat) (z : ℝ) :
    (Vec4.toVec3 ((mat4Cast q).mulVec (Vec3.toVec4 ⟨0, 0, z⟩ 1))) =
      Vec3.smul z (quatCol2 q) := by
  simp only [mat4Cast, Mat4.mulVec, Vec3.toVec4, Vec4.toVec3, quatCol2,
    Vec3.smul]
  ext <;> ring

/-- Rotating the up vector `(0, 1, 0)` lands on the second rotation
column. -/
theorem mulVec_up (q : Quat) :
    (Vec4.toVec3 ((mat4Cast q).mulVec (Vec3.toVec4 ⟨0, 1, 0⟩ 0))) =
      quatCol1 q := by
  simp only [mat4Cast, Mat4.mulVec, Vec3.toVec4, Vec4.toVec3, quatCol1]
  ext <;> ring

/-- Entry `[0][0]` and entry `[3][2]` of the recomputed view matrix for a
unit camera rotation and nonzero zoom: the first is the zoom's sign times
the x component of the first rotation column, the second is minus the
absolute zoom. -/
theorem computeViewMatrix_entries (q : Quat) (hq : q.normSq = 1) (z : ℝ)
    (hz : z ≠ 0) :
    (computeViewMatrix q z).m00 = z / |z| * (quatCol0 q).x ∧
    (computeViewMatrix q z).m32 = -|z| := by
  have hcol0 := dot_quatCol0 q hq
  have hcol2 := dot_quatCol2 q hq
  have hcross := cross_quatCol2_quatCol1 q hq
  have habs : |z| ≠ 0 := abs_ne_zero.mpr hz
  have hsub : Vec3.sub ⟨0, 0, 0⟩ (Vec3.smul z (quatCol2 q)) =
      Vec3.smul (-z) (quatCol2 q) := by
    simp only [Vec3.sub, Vec3.smul]
    ext <;> ring
  have hf : Vec3.normalize (Vec3.sub ⟨0, 0, 0⟩ (Vec3.smul z (quatCol2 q))) =
      Vec3.smul (-z / |z|) (quatCol2 q) := by
    rw [hsub, normalize_smul_unit _ _ hcol2, abs_neg]
  have hneg : Vec3.smul (-z / |z|) (Vec3.neg (quatCol0 q)) =
      Vec3.smul (z / |z|) (quatCol0 q) := by
    simp only [Vec3.smul, Vec3.neg]
    ext <;> ring
  have hsign : abs (z / abs z) = 1 := by
    rw [abs_div, abs_abs]
    exact div_self habs
  have hs : Vec3.normalize
      (Vec3.cross (Vec3.smul (-z / |z|) (quatCol2 q)) (quatCol1 q)) =
      Vec3.smul (z / |z|) (quatCol0 q) := by
    rw [cross_smul_left, hcross, hneg, normalize_smul_unit _ _ hcol0, hsign,
      div_one]
  have hdotfe : Vec3.dot (Vec3.smul (-z / |z|) (quatCol2 q))
      (Vec3.smul z (quatCol2 q)) = -z / |z| * z := by
    simp only [Vec3.dot] at hcol2
    simp only [Vec3.dot, Vec3.smul]
    linear_combination (-z / |z| * z) * hcol2
  constructor
  · show (lookAt (Vec4.toVec3 ((mat4Cast q).mulVec (Vec3.toVec4 ⟨0, 0, z⟩ 1)))
      ⟨0, 0, 0⟩ (Vec4.toVec3 ((mat4Cast q).mulVec (Vec3.toVec4 ⟨0, 1, 0⟩ 0)))).m00
      = z / |z| * (quatCol0 q).x
    rw [mulVec_eye, mulVec_up]
    simp only [lookAt]
    rw [hf, hs]
    simp only [Vec3.smul]
  · show (lookAt (Vec4.toVec3 ((mat4Cast q).mulVec (Vec3.toVec4 ⟨0, 0, z⟩ 1)))
      ⟨0, 0, 0⟩ (Vec4.toVec3 ((mat4Cast q).mulVec (Vec3.toVec4 ⟨0, 1, 0⟩ 0)))).m32
      = -|z|
    rw [mulVec_eye, mulVec_up]
    simp only [lookAt]
    rw [hf, hdotfe]
    field_simp

/-- Entry `[3][2]` of the recomputed view matrix at zoom zero: the eye sits
at the origin, so the dot product with it vanishes. -/
theorem computeViewMatrix_m32_zero (q : Quat) :
    (computeViewMatrix q 0).m32 = 0 := by
  show (lookAt (Vec4.toVec3 ((mat4Cast q).mulVec (Vec3.toVec4 ⟨0, 0, 0⟩ 1)))
      ⟨0, 0, 0⟩ (Vec4.toVec3 ((mat4Cast q).mulVec (Vec3.toVec4 ⟨0, 1, 0⟩ 0)))).m32
      = 0
  rw [mulVec_eye, mulVec_up]
  simp only [lookAt]
  have hzero : Vec3.smul 0 (quatCol2 q) = ⟨0, 0, 0⟩ := by
    simp only [Vec3.smul]
    ext <;> ring
  rw [hzero]
  simp [Vec3.dot]

/-- The fixed camera rotation is a unit quaternion: both angle-axis factors
have unit axes. -/
theorem normSq_camInitRotation : camInitRotation.normSq = 1 := by
  unfold camInitRotation
  rw [Quat.normSq_mul,
    normSq_angleAxis _ _ (by norm_num [Vec3.dot] : Vec3.dot ⟨0, 1, 0⟩ ⟨0, 1, 0⟩ = 1),
    normSq_angleAxis _ _ (by norm_num [Vec3.dot] : Vec3.dot ⟨1, 0, 0⟩ ⟨1, 0, 0⟩ = 1)]
  norm_num

/-- Top-left rotation entry determined by the fixed camera rotation: the
cosine of the 45 degree yaw, `sqrt 2 / 2`. -/
theorem camInit_col0_x : (quatCol0 camInitRotation).x = Real.sqrt 2 / 2 := by
  have hyhalf : radians CameraSettings.DEFAULT_ROTATION_Y * 0.5 = -(Real.pi / 8) := by
    simp only [radians, CameraSettings.DEFAULT_ROTATION_Y]
    ring
  have hx := Real.sin_sq_add_cos_sq (radians CameraSettings.DEFAULT_ROTATION_X * 0.5)
  have h8 : Real.cos (Real.pi / 4) = 1 - 2 * Real.sin (Real.pi / 8) ^ 2 := by
    have hc := Real.cos_two_mul (Real.pi / 8)
    have hsc := Real.sin_sq_add_cos_sq (Real.pi / 8)
    have h2 : 2 * (Real.pi / 8) = Real.pi / 4 := by ring
    rw [h2] at hc
    linarith
  rw [Real.cos_pi_div_four] at h8
  simp only [quatCol0, camInitRotation, Quat.mul, angleAxis, hyhalf,
    Real.sin_neg]
  linear_combination (-2 * Real.sin (Real.pi / 8) ^ 2) * hx - h8

/-- The key entry is nonzero. -/
theorem camInit_col0_x_ne : (quatCol0 camInitRotation).x ≠ 0 := by
  rw [camInit_col0_x]
  positivity

/-- The recomputed view matrix determines the zoom for the fixed camera
rotation: distinct zooms give distinct matrices. -/
theorem computeViewMatrix_inj (z1 z2 : ℝ) (h : z1 ≠ z2) :
    computeViewMatrix camInitRotation z1 ≠ computeViewMatrix camInitRotation z2 := by
  intro heq
  have hq := normSq_camInitRotation
  by_cases h1 : z1 = 0
  · subst h1
    have h2 : z2 ≠ 0 := fun h2 => h (h2.symm)
    have e2 := (computeViewMatrix_entries camInitRotation hq z2 h2).2
    have e1 := computeViewMatrix_m32_zero camInitRotation
    rw [heq, e2] at e1
    have : |z2| = 0 := by linarith
    exact h2 (abs_eq_zero.mp this)
  · by_cases h2 : z2 = 0
    · subst h2
      have e1 := (computeViewMatrix_entries camInitRotation hq z1 h1).2
      have e2 := computeViewMatrix_m32_zero camInitRotation
      rw [heq, e2] at e1
      have : |z1| = 0 := by linarith
      exact h1 (abs_eq_zero.mp this)
    · have ea1 := (computeViewMatrix_entries camInitRotation hq z1 h1).1
      have ea2 := (computeViewMatrix_entries camInitRotation hq z2 h2).1
      have eb1 := (computeViewMatrix_entries camInitRotation hq z1 h1).2
      have eb2 := (computeViewMatrix_entries camInitRotation hq z2 h2).2
      rw [heq] at ea1 eb1
      rw [ea2] at ea1
      rw [eb2] at eb1
      have habs : |z1| = |z2| := by linarith
      have hsgn : z1 / |z1| = z2 / |z2| :=
        mul_right_cancel₀ camInit_col0_x_ne (ea1.symm)
      have hz1 : z1 = z1 / |z1| * |z1| :=
        (div_mul_cancel₀ z1 (abs_ne_zero.mpr h1)).symm
      have hz2 : z2 = z2 / |z2| * |z2| :=
        (div_mul_cancel₀ z2 (abs_ne_zero.mpr h2)).symm
      apply h
      rw [hz1, hz2, hsgn, habs]

/-- Cache coherence invariant for a camera: when the view is not flagged
dirty, the cached matrix equals the recomputation from the current rotation
and zoom. It is established by construction (the dirty flag starts true) and
preserved by every camera method. -/
def viewCoherent (c : Camera) : Prop :=
  c.viewDirty = false → c.view = computeViewMatrix c.rotation c.zoom

/-- Claim C9: two consecutive `get_view_matrix` calls with no intervening
mutation return identical matrices; `set_zoom` with the current value
changes nothing; and from any coherent camera holding the program's fixed
rotation, `set_zoom` with a different value makes the next
`get_view_matrix` result differ from the previously cached matrix. -/
theorem C9_view_matrix_caching :
    (∀ c : Camera,
      (ArcballCamera.get_view_matrix (ArcballCamera.get_view_matrix c).1).2 =
        (ArcballCamera.get_view_matrix c).2) ∧
    (∀ c : Camera, ArcballCamera.set_zoom c c.zoom = c) ∧
    (∀ (c : Camera) (z : ℝ), c.rotation = camInitRotation → viewCoherent c →
      z ≠ c.zoom →
      (ArcballCamera.get_view_matrix
          (ArcballCamera.set_zoom (ArcballCamera.get_view_matrix c).1 z)).2 ≠
        (ArcballCamera.get_view_matrix c).2) := by
  refine ⟨?_, ?_, ?_⟩
  · intro c
    by_cases hd : c.viewDirty = true
    · simp [ArcballCamera.get_view_matrix, hd]
    · simp [ArcballCamera.get_view_matrix, hd]
  · intro c
    simp [ArcballCamera.set_zoom]
  · intro c z hrot hcoh hz
    by_cases hd : c.viewDirty = true
    · simp only [ArcballCamera.get_view_matrix, hd, if_true,
        ArcballCamera.set_zoom]
      rw [if_pos (Ne.symm hz)]
      simp only [if_true, hrot]
      exact computeViewMatrix_inj z c.zoom hz
    · have hd' : c.viewDirty = false := by
        cases hval : c.viewDirty
        · rfl
        · exact absurd hval hd
      have hview := hcoh hd'
      simp only [ArcballCamera.get_view_matrix, hd', Bool.false_eq_true,
        if_false, ArcballCamera.set_zoom]
      rw [if_pos (Ne.symm hz)]
      simp only [if_true, hrot]
      rw [hview, hrot]
      exact computeViewMatrix_inj z c.zoom hz

/-- Witness for C9 at the freshly constructed camera (dirty view, fixed
rotation, default zoom `5`) and new zoom `3`. -/
theorem C9_view_matrix_caching_witness :
    ((ArcballCamera.init 800 600).rotation = camInitRotation ∧
      (3 : ℝ) ≠ (ArcballCamera.init 800 600).zoom) ∧
    (ArcballCamera.get_view_matrix
        (ArcballCamera.set_zoom
          (ArcballCamera.get_view_matrix (ArcballCamera.init 800 600)).1 3)).2 ≠
      (ArcballCamera.get_view_matrix (ArcballCamera.init 800 600)).2 := by
  have hrot : (ArcballCamera.init 800 600).rotation = camInitRotation := rfl
  have hcoh : viewCoherent (ArcballCamera.init 800 600) := by
    intro h
    simp [ArcballCamera.init, ArcballCamera.set_viewport] at h
  have hz : (3 : ℝ) ≠ (ArcballCamera.init 800 600).zoom := by
    norm_num [ArcballCamera.init, ArcballCamera.set_viewport,
      CameraSettings.DEFAULT_ZOOM]
  exact ⟨⟨hrot, hz⟩,
    C9_view_matrix_caching.2.2 (ArcballCamera.init 800 600) 3 hrot hcoh hz⟩

/-- Scene states reachable from construction through the scene-mutating
operations of the program: `reset_transformations`, `fit_to_view`, `clear`,
appending a loaded mesh (`add_mesh`), `handle_wheel`, and `handle_drag`.
For drags, the camera basis vectors read from the view matrix are required
to be unit vectors, which holds for the program's cameras (fixed unit
rotation, nonzero zoom — see `camAxes_unit`). -/
inductive SceneReachable : Scene → Prop where
  | init : SceneReachable Scene.init
  | reset {s : Scene} : SceneReachable s → SceneReachable s.reset_transformations
  | fit {s : Scene} : SceneReachable s → SceneReachable s.fit_to_view.1
  | clear {s : Scene} : SceneReachable s → SceneReachable s.clear
  | add {s : Scene} (m : Mesh) : SceneReachable s →
      SceneReachable { s with meshes := s.meshes ++ [m] }
  | wheel {s : Scene} (camera : Camera) (delta : ℝ) : SceneReachable s →
      SceneReachable (InputHandler.handle_wheel s camera delta).1
  | drag {s : Scene} (ih : InputHandler) (camera : Camera) (x y : ℝ) :
      SceneReachable s →
      Vec3.dot (camUpVec (ArcballCamera.get_view_matrix camera).2)
        (camUpVec (ArcballCamera.get_view_matrix camera).2) = 1 →
      Vec3.dot (camRightVec (ArcballCamera.get_view_matrix camera).2)
        (camRightVec (ArcballCamera.get_view_matrix camera).2) = 1 →
      SceneReachable (ih.handle_drag s camera x y).2.1

/-- Claim C5 (amended): in every reachable scene state the squared norm of
the rotation quaternion is either exactly `1` (the identity set at
construction, preserved by drags, which multiply by unit quaternions) or
exactly `0.99998082 = 2 * 0.7071^2` (the squared norm of the literal
`glm.quat(0.7071, 0.0, -0.7071, 0.0)` installed by `reset_transformations`,
`fit_to_view` and `clear`). The rotation is therefore always normalized only
up to an error below `2e-5`, not exactly. -/
theorem C5_rotation_norm_reachable (s : Scene) (h : SceneReachable s) :
    s.rotation.normSq = 1 ∨ s.rotation.normSq = 0.99998082 := by
  induction h with
  | init =>
    left
    norm_num [Scene.init, Quat.normSq]
  | reset h ih =>
    right
    norm_num [Scene.reset_transformations, Quat.normSq]
  | fit h ih =>
    rename_i s1
    by_cases he : s1.meshes.isEmpty
    · simp only [Scene.fit_to_view, he, if_true]
      exact ih
    · right
      simp only [Scene.fit_to_view, he, Bool.false_eq_true, if_false,
        Scene.reset_transformations]
      norm_num [Quat.normSq]
  | clear h ih =>
    right
    norm_num [Scene.clear, Scene.reset_transformations, Quat.normSq]
  | add m h ih =>
    exact ih
  | wheel camera delta h ih =>
    exact ih
  | drag ih camera x y h hup hright ihp =>
    rename_i s1
    by_cases hl : ih.is_left_mouse_pressed
    · have heq : (ih.handle_drag s1 camera x y).2.1.rotation =
          Quat.mul
            (Quat.mul
              (angleAxis ((x - ih.last_mouse_pos.1) *
                  InputSettings.ROTATION_SENSITIVITY)
                (camUpVec (ArcballCamera.get_view_matrix camera).2))
              (angleAxis ((y - ih.last_mouse_pos.2) *
                  InputSettings.ROTATION_SENSITIVITY)
                (camRightVec (ArcballCamera.get_view_matrix camera).2)))
            s1.rotation := by
        simp [InputHandler.handle_drag, hl]
      rw [heq, Quat.normSq_mul, Quat.normSq_mul,
        normSq_angleAxis _ _ hup, normSq_angleAxis _ _ hright]
      rcases ihp with h1 | h1
      · left
        rw [h1]
        ring
      · right
        rw [h1]
        ring
    · by_cases hr : ih.is_right_mouse_pressed
      · have heq : (ih.handle_drag s1 camera x y).2.1.rotation = s1.rotation := by
          simp [InputHandler.handle_drag, hl, hr]
        rw [heq]
        exact ihp
      · have heq : (ih.handle_drag s1 camera x y).2.1.rotation = s1.rotation := by
          simp [InputHandler.handle_drag, hl, hr]
        rw [heq]
        exact ihp

/-- Counterexample to C5 as stated: the state reached by a single
`reset_transformations` from the initial scene is reachable, yet its
rotation quaternion `glm.quat(0.7071, 0.0, -0.7071, 0.0)` has squared norm
`0.99998082`, which is not `1` — the invariant "rotation is always a
normalized quaternion" fails exactly. -/
theorem C5_rotation_normalized_counterexample :
    SceneReachable Scene.init.reset_transformations ∧
    (Scene.init.reset_transformations).rotation.normSq ≠ 1 := by
  refine ⟨SceneReachable.reset SceneReachable.init, ?_⟩
  norm_num [Scene.reset_transformations, Scene.init, Quat.normSq]

/-- Witness for the amended C5 at the state after one reset: it is
reachable and its squared rotation norm is one of the two values. -/
theorem C5_rotation_norm_reachable_witness :
    SceneReachable Scene.init.reset_transformations ∧
    ((Scene.init.reset_transformations).rotation.normSq = 1 ∨
      (Scene.init.reset_transformations).rotation.normSq = 0.99998082) :=
  ⟨SceneReachable.reset SceneReachable.init,
    C5_rotation_norm_reachable Scene.init.reset_transformations
      (SceneReachable.reset SceneReachable.init)⟩

/-- For a unit quaternion the first and third columns are orthogonal. -/
theorem dot_quatCol0_quatCol2 (q : Quat) (hq : q.normSq = 1) :
    Vec3.dot (quatCol0 q) (quatCol2 q) = 0 := by
  simp only [Quat.normSq] at hq
  simp only [quatCol0, quatCol2, Vec3.dot]
  linear_combination (-4 * q.x * q.z) * hq

/-- Lagrange identity for the cross product. -/
theorem vec3_dot_cross_self (a b : Vec3) :
    Vec3.dot (Vec3.cross a b) (Vec3.cross a b) =
      Vec3.dot a a * Vec3.dot b b - (Vec3.dot a b) ^ 2 := by
  simp only [Vec3.cross, Vec3.dot]
  ring

/-- The camera basis vectors `handle_drag` reads from a freshly recomputed
view matrix are unit vectors whenever the camera rotation is a unit
quaternion and the zoom is nonzero — in particular for every camera the
program builds (fixed rotation `camInitRotation`, zoom clamped away from
zero by `scale > 0`). This discharges the side conditions of the `drag` step
of `SceneReachable`. -/
theorem camAxes_unit (q : Quat) (hq : q.normSq = 1) (z : ℝ) (hz : z ≠ 0) :
    Vec3.dot (camRightVec (computeViewMatrix q z))
      (camRightVec (computeViewMatrix q z)) = 1 ∧
    Vec3.dot (camUpVec (computeViewMatrix q z))
      (camUpVec (computeViewMatrix q z)) = 1 := by
  have hcol0 := dot_quatCol0 q hq
  have hcol2 := dot_quatCol2 q hq
  have hcross := cross_quatCol2_quatCol1 q hq
  have horth := dot_quatCol0_quatCol2 q hq
  have habs : |z| ≠ 0 := abs_ne_zero.mpr hz
  have hsub : Vec3.sub ⟨0, 0, 0⟩ (Vec3.smul z (quatCol2 q)) =
      Vec3.smul (-z) (quatCol2 q) := by
    simp only [Vec3.sub, Vec3.smul]
    ext <;> ring
  have hf : Vec3.normalize (Vec3.sub ⟨0, 0, 0⟩ (Vec3.smul z (quatCol2 q))) =
      Vec3.smul (-z / |z|) (quatCol2 q) := by
    rw [hsub, normalize_smul_unit _ _ hcol2, abs_neg]
  have hneg : Vec3.smul (-z / |z|) (Vec3.neg (quatCol0 q)) =
      Vec3.smul (z / |z|) (quatCol0 q) := by
    simp only [Vec3.smul, Vec3.neg]
    ext <;> ring
  have hsign : abs (z / abs z) = 1 := by
    rw [abs_div, abs_abs]
    exact div_self habs
  have hs : Vec3.normalize
      (Vec3.cross (Vec3.smul (-z / |z|) (quatCol2 q)) (quatCol1 q)) =
      Vec3.smul (z / |z|) (quatCol0 q) := by
    rw [cross_smul_left, hcross, hneg, normalize_smul_unit _ _ hcol0, hsign,
      div_one]
  have hsq : (z / |z|) ^ 2 = 1 := by
    rw [div_pow, sq_abs]
    exact div_self (pow_ne_zero 2 hz)
  have hr : camRightVec (computeViewMatrix q z) =
      Vec3.smul (z / |z|) (quatCol0 q) := by
    show camRightVec (lookAt
      (Vec4.toVec3 ((mat4Cast q).mulVec (Vec3.toVec4 ⟨0, 0, z⟩ 1)))
      ⟨0, 0, 0⟩
      (Vec4.toVec3 ((mat4Cast q).mulVec (Vec3.toVec4 ⟨0, 1, 0⟩ 0)))) = _
    rw [mulVec_eye, mulVec_up]
    simp only [lookAt, camRightVec]
    rw [hf, hs]
  have hu : camUpVec (computeViewMatrix q z) =
      Vec3.cross (Vec3.smul (z / |z|) (quatCol0 q))
        (Vec3.smul (-z / |z|) (quatCol2 q)) := by
    show camUpVec (lookAt
      (Vec4.toVec3 ((mat4Cast q).mulVec (Vec3.toVec4 ⟨0, 0, z⟩ 1)))
      ⟨0, 0, 0⟩
      (Vec4.toVec3 ((mat4Cast q).mulVec (Vec3.toVec4 ⟨0, 1, 0⟩ 0)))) = _
    rw [mulVec_eye, mulVec_up]
    simp only [lookAt, camUpVec]
    rw [hf, hs]
  constructor
  · rw [hr]
    have hexp : Vec3.dot (Vec3.smul (z / |z|) (quatCol0 q))
        (Vec3.smul (z / |z|) (quatCol0 q)) =
        (z / |z|) ^ 2 * Vec3.dot (quatCol0 q) (quatCol0 q) := by
      simp only [Vec3.dot, Vec3.smul]
      ring
    rw [hexp, hcol0, mul_one, hsq]
  · rw [hu, vec3_dot_cross_self]
    have hsq2 : (-z / |z|) ^ 2 = 1 := by
      rw [neg_div, neg_pow, hsq]
      norm_num
    have hda : Vec3.dot (Vec3.smul (z / |z|) (quatCol0 q))
        (Vec3.smul (z / |z|) (quatCol0 q)) =
        (z / |z|) ^ 2 * Vec3.dot (quatCol0 q) (quatCol0 q) := by
      simp only [Vec3.dot, Vec3.smul]
      ring
    have hdb : Vec3.dot (Vec3.smul (-z / |z|) (quatCol2 q))
        (Vec3.smul (-z / |z|) (quatCol2 q)) =
        (-z / |z|) ^ 2 * Vec3.dot (quatCol2 q) (quatCol2 q) := by
      simp only [Vec3.dot, Vec3.smul]
      ring
    have hdab : Vec3.dot (Vec3.smul (z / |z|) (quatCol0 q))
        (Vec3.smul (-z / |z|) (quatCol2 q)) =
        (z / |z|) * (-z / |z|) * Vec3.dot (quatCol0 q) (quatCol2 q) := by
      simp only [Vec3.dot, Vec3.smul]
      ring
    rw [hda, hdb, hdab, hcol0, hcol2, horth, hsq, hsq2]
    norm_num
